import Mathlib

/-!
Verification development for the Omron BLE hook (`src/hooks/useOmron.ts`).

The byte-level decoders and the session-state operations of the hook are
shallowly embedded as executable Lean definitions:

* `Buffer` reads become total functions on `List Nat` returning `Option`
  (a JavaScript out-of-range read throws, which every caller catches and
  turns into a `null` result — embedded here as `none`);
* JavaScript `number` arithmetic is embedded as exact rational arithmetic
  over `ℚ` (double-precision rounding is not modelled);
* IEEE-754 float32 bit patterns are given their exact rational value;
  the exponent-255 patterns (infinities and NaN) have no rational value
  and decode to `none`;
* the React state of the hook (`connectedDevice`, `connectionState`,
  `measurementData`, `subscriptionsRef`) is embedded as an explicit
  `HookState` record, with each operation a state transformer.
-/

namespace Omron

/-- Read one byte of a buffer; `none` when the index is out of range,
mirroring the exception thrown by `Buffer.readUInt8`. -/
def byteAt : List Nat → Nat → Option Nat
  | [], _ => none
  | b :: _, 0 => some b
  | _ :: rest, n + 1 => byteAt rest n

/-- Embedding of `Buffer.readUInt8(off)`. -/
def readUInt8 (b : List Nat) (off : Nat) : Option Nat := byteAt b off

/-- Embedding of `Buffer.readUInt16LE(off)`: little-endian, both bytes
must be in range. -/
def readUInt16LE (b : List Nat) (off : Nat) : Option Nat :=
  match byteAt b off, byteAt b (off + 1) with
  | some lo, some hi => some (lo + 256 * hi)
  | _, _ => none

theorem byteAt_nil (n : Nat) : byteAt [] n = none := rfl

theorem byteAt_cons_zero (x : Nat) (l : List Nat) : byteAt (x :: l) 0 = some x := rfl

theorem byteAt_cons_succ (x : Nat) (l : List Nat) (n : Nat) :
    byteAt (x :: l) (n + 1) = byteAt l n := rfl

/-- A successful byte read witnesses that the index is in range. -/
theorem byteAt_lt_length : ∀ (b : List Nat) (n v : Nat), byteAt b n = some v → n < b.length := by
  intro b
  induction b with
  | nil => intro n v h; simp [byteAt] at h
  | cons x rest ih =>
    intro n v h
    cases n with
    | zero => simp
    | succ m =>
      rw [byteAt_cons_succ] at h
      have := ih m v h
      simp
      omega

/-- Embedding of `Math.pow(base, e)` for an integer exponent, as used by
`readSFloat` (the exponent there is always an integer in [-8, 7]). -/
def qpow (base : ℚ) (e : ℤ) : ℚ :=
  if 0 ≤ e then base ^ e.toNat else (base ^ (-e).toNat)⁻¹

theorem qpow_eq_zpow (base : ℚ) (e : ℤ) : qpow base e = base ^ e := by
  unfold qpow
  rcases le_or_lt 0 e with h | h
  · rw [if_pos h, ← zpow_natCast, Int.toNat_of_nonneg h]
  · rw [if_neg (not_le.mpr h), ← zpow_natCast, Int.toNat_of_nonneg (by omega), ← zpow_neg,
      neg_neg]

/-- Embedding of the body of `readSFloat` in `parseBloodPressureData`:
decode one 16-bit word as an IEEE-11073 SFLOAT.  The low 12 bits are the
mantissa and the high 4 bits the exponent, each sign-extended exactly as
the source does (`mantissa >= 0x0800 ? mantissa - 0x1000 : mantissa`,
`exponent >= 0x08 ? exponent - 0x10 : exponent`). -/
def sfloatOfWord (raw : Nat) : ℚ :=
  let mantissa := raw &&& 0x0fff
  let exponent := raw >>> 12
  let signedMantissa : ℤ := if 0x0800 ≤ mantissa then (mantissa : ℤ) - 0x1000 else (mantissa : ℤ)
  let signedExponent : ℤ := if 0x08 ≤ exponent then (exponent : ℤ) - 0x10 else (exponent : ℤ)
  (signedMantissa : ℚ) * qpow 10 signedExponent

/-- Embedding of `readSFloat`: read a little-endian 16-bit word and decode
it as SFLOAT. -/
def readSFloat (b : List Nat) (off : Nat) : Option ℚ :=
  (readUInt16LE b off).map sfloatOfWord

/-- Two's-complement reading of a `bits`-wide unsigned value, as the
specification describes the SFLOAT fields. -/
def signExtendTC (bits v : Nat) : ℤ :=
  if v < 2 ^ (bits - 1) then (v : ℤ) else (v : ℤ) - 2 ^ bits

/-- C1 counterexample: the word 0x0960 does NOT decode to 2400.0.  Its low
12 bits are 0x960 = 2400 ≥ 0x800, so the decoder sign-extends them to the
negative mantissa 2400 − 4096 = −1696, and the word decodes to −1696. -/
theorem sfloat_0x0960_cx : sfloatOfWord 0x0960 ≠ 2400 ∧ sfloatOfWord 0x0960 = -1696 := by
  have h1 : (0x0960 : Nat) &&& 0x0fff = 2400 := by decide
  have h2 : (0x0960 : Nat) >>> 12 = 0 := by decide
  constructor <;> simp [sfloatOfWord, h1, h2, qpow_eq_zpow]
  norm_num

/-- C1 (amended): for every 16-bit word, `sfloatOfWord` returns
mantissa × 10^exponent with the mantissa the low 12 bits read as 12-bit
two's complement and the exponent the high 4 bits read as 4-bit two's
complement; the word 0xF4B0 (mantissa 1200, exponent −1) decodes to 120,
and the word 0x0960 decodes to −1696 (its mantissa field is negative),
not 2400. -/
theorem sfloat_twos_complement :
    (∀ raw, raw < 65536 →
      sfloatOfWord raw =
        (signExtendTC 12 (raw % 4096) : ℚ) * (10 : ℚ) ^ signExtendTC 4 (raw / 4096))
    ∧ sfloatOfWord 0xF4B0 = 120 ∧ sfloatOfWord 0x0960 = -1696 := by
  have hmain : ∀ raw, raw < 65536 →
      sfloatOfWord raw =
        (signExtendTC 12 (raw % 4096) : ℚ) * (10 : ℚ) ^ signExtendTC 4 (raw / 4096) := ?_
  refine ⟨hmain, ?_, ?_⟩
  · rw [hmain 0xF4B0 (by norm_num)]
    norm_num [signExtendTC]
  · rw [hmain 0x0960 (by norm_num)]
    norm_num [signExtendTC]
  intro raw _
  have hm : raw &&& 0x0fff = raw % 4096 := by
    have := Nat.and_pow_two_sub_one_eq_mod raw 12
    norm_num at this
    exact this
  have he : raw >>> 12 = raw / 4096 := by
    simp [Nat.shiftRight_eq_div_pow]
  simp only [sfloatOfWord, signExtendTC, hm, he, qpow_eq_zpow]
  norm_num
  split_ifs <;> first
    | rfl
    | (exfalso; omega)

/-- C1 witness: the amended theorem applied at the concrete word 0x1234. -/
theorem sfloat_twos_complement_w :
    (0x1234 : Nat) < 65536 ∧
      sfloatOfWord 0x1234 =
        (signExtendTC 12 (0x1234 % 4096) : ℚ) * (10 : ℚ) ^ signExtendTC 4 (0x1234 / 4096) :=
  ⟨by norm_num, sfloat_twos_complement.1 0x1234 (by norm_num)⟩

/-- Per-user slot decoded from the Omron manufacturer advertisement. -/
structure OmronUserInfo where
  index : Nat
  lastSequenceNumber : Nat
  numberOfRecords : Nat
deriving DecidableEq

/-- Decoded Omron advertising payload. -/
structure OmronAdvertisingInfo where
  pairable : Bool
  timeNotConfigured : Bool
  numberOfUsers : Nat
  users : List OmronUserInfo
deriving DecidableEq

def OMRON_COMPANY_ID : Nat := 0x020e

/-- Embedding of the user-slot loop in `parseOmronManufacturerData`:
starting at byte offset `off` with zero-based loop counter `i`, read `n`
slots of {uint16-LE lastSequenceNumber, uint8 numberOfRecords}, assigning
index `i + 1` to each slot in layout order. -/
def readUsers (b : List Nat) : Nat → Nat → Nat → Option (List OmronUserInfo)
  | _, _, 0 => some []
  | off, i, n + 1 =>
    (readUInt16LE b off).bind fun seq =>
    (readUInt8 b (off + 2)).bind fun nrec =>
    (readUsers b (off + 3) (i + 1) n).map fun rest =>
      ⟨i + 1, seq, nrec⟩ :: rest

/-- Embedding of `parseOmronManufacturerData`: uint16-LE company id at 0,
type byte at 2 (must be 0x020E and 0x01), flags byte at 3
(bit3 pairable, bit2 timeNotConfigured, bits0–1 numberOfUsers−1), then
`numberOfUsers` user slots from offset 4.  A read past the end of the
buffer throws in the source and is caught, returning `null`: here `none`. -/
def parseOmronManufacturerData (b : List Nat) : Option OmronAdvertisingInfo :=
  (readUInt16LE b 0).bind fun companyId =>
  (readUInt8 b 2).bind fun ty =>
  if companyId = OMRON_COMPANY_ID ∧ ty = 0x01 then
    (readUInt8 b 3).bind fun flags =>
    (readUsers b 4 0 ((flags &&& 0b0011) + 1)).map fun users =>
      { pairable := flags &&& 0b1000 != 0
        timeNotConfigured := flags &&& 0b0100 != 0
        numberOfUsers := (flags &&& 0b0011) + 1
        users := users }
  else none

/-- Modelled from the spec (§4.1 layout): the canonical encoding of an
advertising payload from its field values — company id 0x020E
little-endian, type byte 0x01, flags byte, then one 3-byte slot per user.
Used only to state the decode∘encode round-trip. -/
def encodeAdvertising (pairable tnc : Bool) (slots : List (Nat × Nat)) : List Nat :=
  [0x0e, 0x02, 0x01,
    (slots.length - 1) + (if tnc then 4 else 0) + (if pairable then 8 else 0)]
    ++ (slots.map fun s => [s.1 % 256, s.1 / 256, s.2]).flatten

/-- The user list the specification expects from a list of
(sequence, records) slots: indices 1.. in layout order. -/
def usersFromSlots : Nat → List (Nat × Nat) → List OmronUserInfo
  | _, [] => []
  | i, s :: rest => ⟨i + 1, s.1, s.2⟩ :: usersFromSlots (i + 1) rest

/-- C2: decoding an encoded advertising payload returns exactly the
encoded field values, with users indexed 1..numberOfUsers in layout
order, for any 1–4 slots with sequence < 65536 and records < 256. -/
theorem advertising_roundtrip :
    ∀ (pairable tnc : Bool) (slots : List (Nat × Nat)),
      1 ≤ slots.length → slots.length ≤ 4 →
      (∀ s ∈ slots, s.1 < 65536 ∧ s.2 < 256) →
      parseOmronManufacturerData (encodeAdvertising pairable tnc slots) =
        some ⟨pairable, tnc, slots.length, usersFromSlots 0 slots⟩ := by
  intro pairable tnc slots h1 h4 hin
  rcases slots with _ | ⟨a, _ | ⟨b, _ | ⟨c, _ | ⟨d, _ | ⟨e, rest⟩⟩⟩⟩⟩
  · simp at h1
  all_goals try (simp at h4)
  all_goals
    simp only [List.mem_cons, List.mem_singleton, List.not_mem_nil, forall_eq_or_imp] at hin
  · obtain ⟨⟨ha1, ha2⟩, -⟩ := hin
    cases pairable <;> cases tnc <;>
      (simp +decide [encodeAdvertising, parseOmronManufacturerData, OMRON_COMPANY_ID, readUInt16LE,
        readUInt8, byteAt, readUsers, usersFromSlots]; omega)
  · obtain ⟨⟨ha1, ha2⟩, ⟨hb1, hb2⟩, -⟩ := hin
    cases pairable <;> cases tnc <;>
      (simp +decide [encodeAdvertising, parseOmronManufacturerData, OMRON_COMPANY_ID, readUInt16LE,
        readUInt8, byteAt, readUsers, usersFromSlots]; omega)
  · obtain ⟨⟨ha1, ha2⟩, ⟨hb1, hb2⟩, ⟨hc1, hc2⟩, -⟩ := hin
    cases pairable <;> cases tnc <;>
      (simp +decide [encodeAdvertising, parseOmronManufacturerData, OMRON_COMPANY_ID, readUInt16LE,
        readUInt8, byteAt, readUsers, usersFromSlots]; omega)
  · obtain ⟨⟨ha1, ha2⟩, ⟨hb1, hb2⟩, ⟨hc1, hc2⟩, ⟨hd1, hd2⟩, -⟩ := hin
    cases pairable <;> cases tnc <;>
      (simp +decide [encodeAdvertising, parseOmronManufacturerData, OMRON_COMPANY_ID, readUInt16LE,
        readUInt8, byteAt, readUsers, usersFromSlots]; omega)

/-- C2 witness: the round-trip theorem applied at a concrete payload with
two users. -/
theorem advertising_roundtrip_w :
    parseOmronManufacturerData (encodeAdvertising true false [(5, 3), (300, 7)]) =
      some ⟨true, false, 2, [⟨1, 5, 3⟩, ⟨2, 300, 7⟩]⟩ :=
  advertising_roundtrip true false [(5, 3), (300, 7)] (by norm_num) (by norm_num)
    (by intro s hs; simp at hs; rcases hs with h | h <;> simp [h])

/-- Embedding of the registry update in the `scanDevices` callback: a
`null` parse result leaves the registry unchanged; otherwise, if an entry
with the same id already exists the previous registry is returned
unchanged, else the enriched device is appended. -/
def addDiscoveredDevice (registry : List (Nat × OmronAdvertisingInfo)) (devId : Nat)
    (parsed : Option OmronAdvertisingInfo) : List (Nat × OmronAdvertisingInfo) :=
  match parsed with
  | none => registry
  | some info =>
    if registry.any fun d => d.1 == devId then registry
    else registry ++ [(devId, info)]

/-- Embedding of `setDevices([])` at the start of `scanDevices`. -/
def scanStartRegistry (_registry : List (Nat × OmronAdvertisingInfo)) :
    List (Nat × OmronAdvertisingInfo) := []

/-- A successful read of `n ≥ 1` user slots starting at `off` implies the
buffer extends to at least `off + 3 * n` bytes. -/
theorem readUsers_length {b : List Nat} :
    ∀ (n off i : Nat) (l : List OmronUserInfo),
      readUsers b off i n = some l → n ≠ 0 → off + 3 * n ≤ b.length := by
  intro n
  induction n with
  | zero => intro off i l _ h0; exact absurd rfl h0
  | succ m ih =>
    intro off i l h _
    simp only [readUsers, Option.bind_eq_some, Option.map_eq_some'] at h
    obtain ⟨seq, hseq, nrec, hnrec, rest, hrest, -⟩ := h
    have h2 := byteAt_lt_length b (off + 2) nrec hnrec
    cases m with
    | zero => omega
    | succ k =>
      have := ih (off + 3) (i + 1) rest hrest (by omega)
      omega

/-- A successful advertisement parse pins down the flags byte and forces
the buffer to hold all the user slots the flags announce. -/
theorem parse_some_length {b : List Nat} {info : OmronAdvertisingInfo}
    (h : parseOmronManufacturerData b = some info) :
    ∃ flags, byteAt b 3 = some flags ∧ 4 + 3 * ((flags &&& 0b0011) + 1) ≤ b.length := by
  simp only [parseOmronManufacturerData, Option.bind_eq_some] at h
  obtain ⟨cid, hcid, ty, hty, h⟩ := h
  split at h
  · simp only [Option.bind_eq_some, Option.map_eq_some'] at h
    obtain ⟨flags, hflags, users, husers, -⟩ := h
    exact ⟨flags, hflags, readUsers_length _ 4 0 users husers (by omega)⟩
  · exact absurd h (by simp)

/-- C7: the advertisement decoder is total and fails closed — a buffer too
short for its own header, a buffer shorter than its flags byte announces,
or a non-Omron header all decode to `none`, and a `none` parse leaves the
device registry untouched. -/
theorem advertising_truncation_safe :
    (∀ b, b.length < 4 → parseOmronManufacturerData b = none)
    ∧ (∀ b flags, byteAt b 3 = some flags →
        b.length < 4 + 3 * ((flags &&& 0b0011) + 1) → parseOmronManufacturerData b = none)
    ∧ (∀ b cid ty, readUInt16LE b 0 = some cid → readUInt8 b 2 = some ty →
        ¬(cid = OMRON_COMPANY_ID ∧ ty = 0x01) → parseOmronManufacturerData b = none)
    ∧ (∀ b reg devId, parseOmronManufacturerData b = none →
        addDiscoveredDevice reg devId (parseOmronManufacturerData b) = reg) := by
  refine ⟨?_, ?_, ?_, ?_⟩
  · intro b hlen
    cases hp : parseOmronManufacturerData b with
    | none => rfl
    | some info =>
      obtain ⟨flags, -, hbound⟩ := parse_some_length hp
      omega
  · intro b flags hf hlen
    cases hp : parseOmronManufacturerData b with
    | none => rfl
    | some info =>
      obtain ⟨flags2, hf2, hbound⟩ := parse_some_length hp
      rw [hf] at hf2
      cases hf2
      omega
  · intro b cid ty hcid hty hne
    simp only [parseOmronManufacturerData, hcid, hty, Option.some_bind]
    rw [if_neg hne]
  · intro b reg devId h
    rw [h]
    rfl

/-- C7 witness: a 4-byte buffer whose flags byte announces four user
slots (needing 16 bytes) decodes to `none` and adds nothing. -/
theorem advertising_truncation_safe_w :
    parseOmronManufacturerData [0x0e, 0x02, 0x01, 0b0011] = none
    ∧ parseOmronManufacturerData [0x0e, 0x02] = none
    ∧ addDiscoveredDevice [] 1 (parseOmronManufacturerData [0x0e, 0x02]) = [] :=
  ⟨advertising_truncation_safe.2.1 [0x0e, 0x02, 0x01, 0b0011] 0b0011 rfl (by decide),
   advertising_truncation_safe.1 [0x0e, 0x02] (by decide),
   advertising_truncation_safe.2.2.2 [0x0e, 0x02] [] 1
     (advertising_truncation_safe.1 [0x0e, 0x02] (by decide))⟩

def infoA : OmronAdvertisingInfo := ⟨false, false, 1, [⟨1, 0, 0⟩]⟩

def infoB : OmronAdvertisingInfo := ⟨true, false, 1, [⟨1, 0, 0⟩]⟩

/-- C6 counterexample: re-sighting an already-registered id does NOT
update the entry in place — the new advertisement data is discarded and
the old entry kept, so the registry is not "updated" with `infoB`. -/
theorem registry_update_cx :
    addDiscoveredDevice [(5, infoA)] 5 (some infoB) = [(5, infoA)]
    ∧ addDiscoveredDevice [(5, infoA)] 5 (some infoB) ≠ [(5, infoB)] := by
  constructor <;> decide

/-- C6 (amended): the registry never holds two entries with the same id —
an update preserves id-nodup; a re-sighted id leaves the registry
unchanged (the fresh advertisement is ignored, not merged); a new id is
appended; and a new scan empties the registry. -/
theorem registry_invariant :
    (∀ reg devId p, (reg.map Prod.fst).Nodup →
      ((addDiscoveredDevice reg devId p).map Prod.fst).Nodup)
    ∧ (∀ reg devId info, (reg.any fun d => d.1 == devId) = true →
        addDiscoveredDevice reg devId (some info) = reg)
    ∧ (∀ reg devId info, (reg.any fun d => d.1 == devId) = false →
        addDiscoveredDevice reg devId (some info) = reg ++ [(devId, info)])
    ∧ (∀ reg, scanStartRegistry reg = []) := by
  refine ⟨?_, ?_, ?_, fun _ => rfl⟩
  · intro reg devId p hnd
    cases p with
    | none => exact hnd
    | some info =>
      cases hany : reg.any fun d => d.1 == devId with
      | true => simpa [addDiscoveredDevice, hany] using hnd
      | false =>
        have hnin : devId ∉ reg.map Prod.fst := by
          intro hmem
          obtain ⟨d, hd, hfst⟩ := List.mem_map.1 hmem
          have := List.any_eq_false.1 hany d hd
          simp [hfst] at this
        simp [addDiscoveredDevice, hany, List.nodup_append, hnd, hnin]
  · intro reg devId info hany
    simp [addDiscoveredDevice, hany]
  · intro reg devId info hany
    simp [addDiscoveredDevice, hany]

/-- C6 witness: the amended theorem applied at concrete registries —
nodup preservation on a fresh id, no-op on a re-sighted id, append on a
fresh id. -/
theorem registry_invariant_w :
    ((addDiscoveredDevice [(1, infoA)] 2 (some infoB)).map Prod.fst).Nodup
    ∧ addDiscoveredDevice [(1, infoA)] 1 (some infoB) = [(1, infoA)]
    ∧ addDiscoveredDevice [(1, infoA)] 2 (some infoB) = [(1, infoA), (2, infoB)] :=
  ⟨registry_invariant.1 [(1, infoA)] 2 (some infoB) (by decide),
   registry_invariant.2.1 [(1, infoA)] 1 infoB (by decide),
   registry_invariant.2.2.1 [(1, infoA)] 2 infoB (by decide)⟩

/-- The 7-byte GATT date-time consumed when a measurement's timestamp
flag bit is set.  A measurement stores `none` here when the device
reported no timestamp; the source then defaults to capture time
(`new Date()`), an effect outside the embedding. -/
structure DeviceTimestamp where
  year : Nat
  month : Nat
  day : Nat
  hour : Nat
  minute : Nat
  second : Nat
deriving DecidableEq

/-- Embedding of the shared 7-byte timestamp read: uint16-LE year then
uint8 month, day, hour, minute, second. -/
def readDateTime (b : List Nat) (off : Nat) : Option DeviceTimestamp :=
  (readUInt16LE b off).bind fun year =>
  (readUInt8 b (off + 2)).bind fun month =>
  (readUInt8 b (off + 3)).bind fun day =>
  (readUInt8 b (off + 4)).bind fun hour =>
  (readUInt8 b (off + 5)).bind fun minute =>
  (readUInt8 b (off + 6)).map fun second =>
    ⟨year, month, day, hour, minute, second⟩

/-- Decoded blood-pressure measurement. -/
structure BloodPressureMeasurement where
  systolic : ℚ
  diastolic : ℚ
  meanArterialPressure : ℚ
  pulse : Option ℚ
  timestamp : Option DeviceTimestamp
  unit : String
deriving DecidableEq

/-- Embedding of `parseBloodPressureData`: byte0 flags; SFLOATs systolic,
diastolic, mean arterial pressure at offsets 1, 3, 5; 7-byte timestamp at
7 iff flags bit1; one more SFLOAT pulse iff flags bit2, at 14 when the
timestamp was consumed and at 7 otherwise; unit fixed "mmHg". -/
def parseBloodPressureData (b : List Nat) : Option BloodPressureMeasurement :=
  (readUInt8 b 0).bind fun flags =>
  (readSFloat b 1).bind fun systolic =>
  (readSFloat b 3).bind fun diastolic =>
  (readSFloat b 5).bind fun meanArterialPressure =>
  (if flags &&& 0x02 ≠ 0 then (readDateTime b 7).map some else some none).bind fun ts =>
  (if flags &&& 0x04 ≠ 0 then
      (readSFloat b (if flags &&& 0x02 ≠ 0 then 14 else 7)).map some
    else some none).map fun pulse =>
    ⟨systolic, diastolic, meanArterialPressure, pulse, ts, "mmHg"⟩

/-- Decoded weight measurement. -/
structure WeightMeasurement where
  weight : ℚ
  timestamp : Option DeviceTimestamp
  unit : String
deriving DecidableEq

/-- Embedding of `parseWeightData`: byte0 flags; uint16-LE raw at 1 times
0.005 kilograms; 7-byte timestamp at 3 iff flags bit1; unit fixed "kg". -/
def parseWeightData (b : List Nat) : Option WeightMeasurement :=
  (readUInt8 b 0).bind fun flags =>
  (readUInt16LE b 1).bind fun weightRaw =>
  (if flags &&& 0x02 ≠ 0 then (readDateTime b 3).map some else some none).map fun ts =>
    ⟨(weightRaw : ℚ) * (5 / 1000), ts, "kg"⟩

/-- Exact rational value of an IEEE-754 binary32 bit pattern, as
`Buffer.readFloatLE` delivers it; the exponent-255 patterns (infinities
and NaN) have no rational value and yield `none`. -/
def float32ToRat (bits : Nat) : Option ℚ :=
  let sign := bits >>> 31
  let expo := (bits >>> 23) &&& 0xff
  let frac := bits &&& 0x7fffff
  if expo = 255 then none
  else
    let mag : ℚ :=
      if expo = 0 then (frac : ℚ) * qpow 2 (-149)
      else ((2 ^ 23 + frac : ℕ) : ℚ) * qpow 2 ((expo : ℤ) - 150)
    some (if sign = 1 then -mag else mag)

/-- Embedding of `Buffer.readFloatLE(off)`: four bytes little-endian
assembled into a binary32 bit pattern. -/
def readFloatLE (b : List Nat) (off : Nat) : Option ℚ :=
  (byteAt b off).bind fun b0 =>
  (byteAt b (off + 1)).bind fun b1 =>
  (byteAt b (off + 2)).bind fun b2 =>
  (byteAt b (off + 3)).bind fun b3 =>
    float32ToRat (b0 + 256 * b1 + 65536 * b2 + 16777216 * b3)

/-- Decoded temperature measurement; the unit is always Celsius. -/
structure TemperatureMeasurement where
  temperature : ℚ
  timestamp : Option DeviceTimestamp
  unit : String
deriving DecidableEq

/-- Embedding of `parseTemperatureData`: byte0 flags; float32-LE raw at 1;
7-byte timestamp at 5 iff flags bit1; flags bit0 set stores raw Celsius
unchanged, clear converts Fahrenheit via (raw−32)·5⁄9; unit "°C". -/
def parseTemperatureData (b : List Nat) : Option TemperatureMeasurement :=
  (readUInt8 b 0).bind fun flags =>
  (readFloatLE b 1).bind fun tempRaw =>
  (if flags &&& 0x02 ≠ 0 then (readDateTime b 5).map some else some none).map fun ts =>
    ⟨if flags &&& 0x01 ≠ 0 then tempRaw else (tempRaw - 32) * 5 / 9, ts, "°C"⟩

/-- Decoded body-composition measurement; both sub-fields optional. -/
structure BodyCompositionMeasurement where
  bodyFatPercentage : Option ℚ
  muscleMass : Option ℚ
deriving DecidableEq

/-- Embedding of `parseBodyCompositionData`: uint16-LE flags at 0;
if bit1, next uint16-LE ⁄ 10 is body-fat percentage; if bit5, next
uint16-LE ⁄ 10 is muscle mass; fields consumed in ascending bit order. -/
def parseBodyCompositionData (b : List Nat) : Option BodyCompositionMeasurement :=
  (readUInt16LE b 0).bind fun flags =>
  (if flags &&& 0x02 ≠ 0 then (readUInt16LE b 2).map fun (v : ℕ) => some ((v : ℚ) / 10)
    else some none).bind fun bf =>
  (if flags &&& 0x20 ≠ 0 then
      (readUInt16LE b (if flags &&& 0x02 ≠ 0 then 4 else 2)).map fun (v : ℕ) =>
        some ((v : ℚ) / 10)
    else some none).map fun mm =>
    ⟨bf, mm⟩

/-- C8: a decoded measurement's optional sub-field is present exactly when
its flag bit was set — blood-pressure pulse iff flags bit2 (0x04),
body-fat percentage iff body-composition flags bit1 (0x02), muscle mass
iff bit5 (0x20) — and the fields are consumed in ascending bit order
(body fat from offset 2; muscle mass from offset 4 when body fat was
present, else from offset 2). -/
theorem optional_fields_iff_flags :
    (∀ b m flags, readUInt8 b 0 = some flags → parseBloodPressureData b = some m →
      (m.pulse.isSome ↔ flags &&& 0x04 ≠ 0))
    ∧ (∀ b m flags, readUInt16LE b 0 = some flags → parseBodyCompositionData b = some m →
        (m.bodyFatPercentage.isSome ↔ flags &&& 0x02 ≠ 0)
        ∧ (m.muscleMass.isSome ↔ flags &&& 0x20 ≠ 0)
        ∧ (∀ v, flags &&& 0x02 ≠ 0 → readUInt16LE b 2 = some v →
            m.bodyFatPercentage = some ((v : ℚ) / 10))
        ∧ (∀ v, flags &&& 0x20 ≠ 0 →
            readUInt16LE b (if flags &&& 0x02 ≠ 0 then 4 else 2) = some v →
            m.muscleMass = some ((v : ℚ) / 10))) := by
  constructor
  · intro b m flags hf hp
    simp only [parseBloodPressureData, hf, Option.some_bind, Option.bind_eq_some,
      Option.map_eq_some'] at hp
    obtain ⟨sys, hsys, dia, hdia, mapv, hmapv, ts, hts, pulse, hpulse, heq⟩ := hp
    subst heq
    by_cases h4 : flags &&& 0x04 ≠ 0
    · rw [if_pos h4] at hpulse
      simp only [Option.map_eq_some'] at hpulse
      obtain ⟨p, -, hp2⟩ := hpulse
      subst hp2
      simp [h4]
    · rw [if_neg h4] at hpulse
      cases hpulse
      simp [h4]
  · intro b m flags hf hp
    unfold parseBodyCompositionData at hp
    rw [hf] at hp
    simp only [Option.some_bind] at hp
    by_cases h2 : flags &&& 0x02 ≠ 0
    · simp only [if_pos h2] at hp
      cases hbf : readUInt16LE b 2 with
      | none => rw [hbf] at hp; simp at hp
      | some v0 =>
        rw [hbf] at hp
        simp only [Option.map_some', Option.some_bind] at hp
        by_cases h5 : flags &&& 0x20 ≠ 0
        · simp only [if_pos h5] at hp
          cases hmw : readUInt16LE b 4 with
          | none => rw [hmw] at hp; simp at hp
          | some w0 =>
            rw [hmw] at hp
            simp only [Option.map_some', Option.some.injEq] at hp
            subst hp
            refine ⟨by simp [h2], by simp [h5], ?_, ?_⟩
            · intro v _ hv
              cases hv
              rfl
            · intro v _ hv
              rw [if_pos h2, hmw] at hv
              cases hv
              rfl
        · simp only [if_neg h5, Option.map_some', Option.some.injEq] at hp
          subst hp
          refine ⟨by simp [h2], by simp [h5], ?_, fun v h5x _ => absurd h5x h5⟩
          intro v _ hv
          cases hv
          rfl
    · simp only [if_neg h2, Option.some_bind] at hp
      by_cases h5 : flags &&& 0x20 ≠ 0
      · simp only [if_pos h5] at hp
        cases hmw : readUInt16LE b 2 with
        | none => rw [hmw] at hp; simp at hp
        | some w0 =>
          rw [hmw] at hp
          simp only [Option.map_some', Option.some.injEq] at hp
          subst hp
          refine ⟨by simp [h2], by simp [h5], fun v h2x _ => absurd h2x h2, ?_⟩
          intro v _ hv
          rw [if_neg h2, hmw] at hv
          cases hv
          rfl
      · simp only [if_neg h5, Option.map_some', Option.some.injEq] at hp
        subst hp
        exact ⟨by simp [h2], by simp [h5], fun v h2x _ => absurd h2x h2,
          fun v h5x _ => absurd h5x h5⟩

/-- C8 witness: the theorem applied at a concrete blood-pressure payload
with pulse present and a concrete body-composition payload with both
fields present. -/
theorem parseBC_sample :
    parseBodyCompositionData [0x22, 0, 10, 0, 250, 0] = some ⟨some 1, some 25⟩ := by
  simp +decide [parseBodyCompositionData, readUInt16LE, byteAt]
  norm_num

theorem optional_fields_iff_flags_w :
    ((some (16 : ℚ)).isSome ↔ (4 : Nat) &&& 0x04 ≠ 0)
    ∧ ((some (1 : ℚ)).isSome ↔ (0x22 : Nat) &&& 0x02 ≠ 0) :=
  ⟨optional_fields_iff_flags.1 [4, 0, 0, 0, 0, 0, 0, 16, 0]
      ⟨0, 0, 0, some 16, none, "mmHg"⟩ 4 rfl (by simp +decide [parseBloodPressureData,
        readUInt8, readSFloat, readUInt16LE, byteAt, sfloatOfWord, qpow, readDateTime]),
   (optional_fields_iff_flags.2 [0x22, 0, 10, 0, 250, 0]
      ⟨some 1, some 25⟩ 0x22 rfl parseBC_sample).1⟩

/-- C9: the decoded temperature equals the raw float32 value when flags
bit0 (Celsius) is set and (raw − 32)·5⁄9 when clear; the stored unit is
always "°C"; the 7-byte device timestamp is consumed iff flags bit1 is
set, else the timestamp is absent and capture time is used. -/
theorem temperature_conversion :
    ∀ b m flags tempRaw, readUInt8 b 0 = some flags → readFloatLE b 1 = some tempRaw →
      parseTemperatureData b = some m →
      m.temperature = (if flags &&& 0x01 ≠ 0 then tempRaw else (tempRaw - 32) * 5 / 9)
      ∧ m.unit = "°C"
      ∧ (m.timestamp.isSome ↔ flags &&& 0x02 ≠ 0) := by
  intro b m flags tempRaw hf hraw hp
  simp only [parseTemperatureData, hf, hraw, Option.some_bind, Option.bind_eq_some,
    Option.map_eq_some'] at hp
  obtain ⟨ts, hts, heq⟩ := hp
  subst heq
  refine ⟨rfl, rfl, ?_⟩
  by_cases h2 : flags &&& 0x02 ≠ 0
  · rw [if_pos h2] at hts
    simp only [Option.map_eq_some'] at hts
    obtain ⟨t, -, rfl⟩ := hts
    simp [h2]
  · rw [if_neg h2] at hts
    cases hts
    simp [h2]

/-- The bit pattern 0x3F800000 (bytes 00 00 80 3F little-endian) is the
binary32 encoding of 1.0. -/
theorem float32_one : readFloatLE [1, 0, 0, 0x80, 0x3f] 1 = some 1 := by
  have h31 : (1065353216 : Nat) >>> 31 = 0 := by decide
  have h23 : (1065353216 : Nat) >>> 23 &&& 255 = 127 := by decide
  have hfr : (1065353216 : Nat) &&& 8388607 = 0 := by decide
  show float32ToRat (0 + 256 * 0 + 65536 * 128 + 16777216 * 63) = some 1
  norm_num
  simp only [float32ToRat, h23, h31, hfr]
  norm_num [qpow]
  rw [show Int.toNat 23 = 23 from rfl]
  norm_num

/-- The payload [1, 00 00 80 3F]: Celsius flag set, raw 1.0, no device
timestamp. -/
theorem parseTemp_one :
    parseTemperatureData [1, 0, 0, 0x80, 0x3f] = some ⟨1, none, "°C"⟩ := by
  have h2 : (1 : Nat) &&& 2 = 0 := by decide
  have h0 : (1 : Nat) &&& 1 = 1 := by decide
  simp [parseTemperatureData, readUInt8, byteAt, float32_one, h2, h0]

/-- C9 witness: the theorem applied at the concrete payload
[1, 0, 0, 0x80, 0x3f] — Celsius flag set, raw float32 1.0. -/
theorem temperature_conversion_w :
    (1 : ℚ) = (if (1 : Nat) &&& 0x01 ≠ 0 then (1 : ℚ) else ((1 : ℚ) - 32) * 5 / 9)
    ∧ "°C" = "°C"
    ∧ ((none : Option DeviceTimestamp).isSome ↔ (1 : Nat) &&& 0x02 ≠ 0) :=
  temperature_conversion [1, 0, 0, 0x80, 0x3f] ⟨1, none, "°C"⟩ 1 1 rfl
    float32_one parseTemp_one

/-- Closed tagged union of the decoded measurements. -/
inductive OmronMeasurement where
  | bloodPressure : BloodPressureMeasurement → OmronMeasurement
  | weight : WeightMeasurement → OmronMeasurement
  | temperature : TemperatureMeasurement → OmronMeasurement
  | bodyComposition : BodyCompositionMeasurement → OmronMeasurement
deriving DecidableEq

/-- True when the needle occurs at the start of the haystack. -/
def matchesAt : List Char → List Char → Bool
  | _, [] => true
  | [], _ :: _ => false
  | a :: as, c :: cs => a == c && matchesAt as cs

/-- Embedding of JavaScript `String.prototype.includes`: true when the
needle occurs contiguously anywhere in the haystack. -/
def hasSub : List Char → List Char → Bool
  | [], needle => needle.isEmpty
  | h :: t, needle => matchesAt (h :: t) needle || hasSub t needle

/-- Embedding of `String.prototype.toUpperCase` on the ASCII identifiers
used for characteristic UUIDs. -/
def strUpper (s : List Char) : List Char := s.map Char.toUpper

def BLOOD_PRESSURE_MEASUREMENT : List Char := "2A35".toList

def WEIGHT_MEASUREMENT : List Char := "2A9D".toList

def BODY_COMPOSITION_MEASUREMENT : List Char := "2A9C".toList

def TEMPERATURE_MEASUREMENT : List Char := "2A1C".toList

def RECORD_ACCESS_CONTROL_POINT : List Char := "2A52".toList

def OMRON_PLX_SPOT_CHECK : List Char := "6E4000F1-B5A3-F393-EFA9-E50E24DCCA9E".toList

/-- Embedding of `isMeasurementCharacteristic`: the subscription filter
matches a UUID when any of the five measurement identifiers (the four
GATT ones plus the vendor spot-check UUID) occurs in it,
case-insensitively. -/
def isMeasurementCharacteristic (uuid : List Char) : Bool :=
  [BLOOD_PRESSURE_MEASUREMENT, WEIGHT_MEASUREMENT, BODY_COMPOSITION_MEASUREMENT,
    TEMPERATURE_MEASUREMENT, OMRON_PLX_SPOT_CHECK].any fun m =>
    hasSub (strUpper uuid) (strUpper m)

/-- Embedding of `parseMeasurementData`: uppercase the UUID, then
dispatch to the blood-pressure, weight, temperature or body-composition
decoder; any other characteristic — including the vendor spot-check
UUID — yields `null`, here `none`. -/
def parseMeasurementData (characteristicUUID : List Char) (b : List Nat) :
    Option OmronMeasurement :=
  let uuid := strUpper characteristicUUID
  if hasSub uuid BLOOD_PRESSURE_MEASUREMENT then
    (parseBloodPressureData b).map .bloodPressure
  else if hasSub uuid WEIGHT_MEASUREMENT then
    (parseWeightData b).map .weight
  else if hasSub uuid TEMPERATURE_MEASUREMENT then
    (parseTemperatureData b).map .temperature
  else if hasSub uuid BODY_COMPOSITION_MEASUREMENT then
    (parseBodyCompositionData b).map .bodyComposition
  else none

/-- Embedding of the notification handler installed by
`setupNotification`: a decodable payload is appended to the accumulated
measurement list, any other payload leaves it unchanged. -/
def notificationStep (uuid : List Char) (value : List Nat)
    (acc : List OmronMeasurement) : List OmronMeasurement :=
  match parseMeasurementData uuid value with
  | some d => acc ++ [d]
  | none => acc

/-- C10: the vendor spot-check UUID is matched by the subscription filter
(a handler is attached), but the measurement dispatcher has no branch for
it, so every payload on that characteristic decodes to `none` and nothing
is ever appended to the accumulated measurement list. -/
theorem spot_check_no_measurement :
    isMeasurementCharacteristic OMRON_PLX_SPOT_CHECK = true
    ∧ (∀ b, parseMeasurementData OMRON_PLX_SPOT_CHECK b = none)
    ∧ (∀ b acc, notificationStep OMRON_PLX_SPOT_CHECK b acc = acc) :=
  ⟨by decide, fun _ => rfl, fun _ _ => rfl⟩

def RACP_REPORT_STORED_RECORDS : Nat := 0x01

def RACP_REPORT_NUMBER_OF_STORED_RECORDS : Nat := 0x04

def RACP_NUMBER_OF_STORED_RECORDS_RESPONSE : Nat := 0x05

def RACP_RESPONSE_CODE : Nat := 0x06

def RACP_ALL_RECORDS : Nat := 0x01

/-- The two-byte command written by `requestAllStoredRecords`:
REPORT_STORED_RECORDS with operator ALL_RECORDS. -/
def requestAllStoredRecordsCommand : List Nat :=
  [RACP_REPORT_STORED_RECORDS, RACP_ALL_RECORDS]

/-- Embedding of `handleRACPResponse`: dispatch on the opcode at byte 0.
For NUMBER_OF_STORED_RECORDS_RESPONSE (0x05) the uint16-LE count at
offset 2 is read; a positive count issues the bulk-request command, a
zero count issues nothing.  RESPONSE_CODE (0x06) and unknown opcodes only
log.  The result pairs the accumulated measurement list (which this
handler never modifies) with the list of control-point commands
written. -/
def handleRACPResponse (acc : List OmronMeasurement) (b : List Nat) :
    List OmronMeasurement × List (List Nat) :=
  match readUInt8 b 0 with
  | none => (acc, [])
  | some opCode =>
    if opCode = RACP_NUMBER_OF_STORED_RECORDS_RESPONSE then
      match readUInt16LE b 2 with
      | none => (acc, [])
      | some numberOfRecords =>
        if numberOfRecords > 0 then (acc, [requestAllStoredRecordsCommand])
        else (acc, [])
    else (acc, [])

/-- C3: on a 0x05 indication the handler reads the uint16-LE count at
offset 2; a positive count writes exactly the two-byte command
[0x01, 0x01] (REPORT_STORED_RECORDS, ALL_RECORDS), a zero count writes
nothing, and in both cases the accumulated measurement list is left
exactly as it was — so a zero count completes with zero new records. -/
theorem racp_count_response :
    ∀ acc b n, readUInt8 b 0 = some RACP_NUMBER_OF_STORED_RECORDS_RESPONSE →
      readUInt16LE b 2 = some n →
      handleRACPResponse acc b = (acc, if n > 0 then [[0x01, 0x01]] else []) := by
  intro acc b n h0 h2
  unfold handleRACPResponse
  rw [h0, h2]
  simp only [requestAllStoredRecordsCommand, RACP_REPORT_STORED_RECORDS, RACP_ALL_RECORDS,
    RACP_NUMBER_OF_STORED_RECORDS_RESPONSE, if_pos rfl]
  by_cases hn : n > 0 <;> simp [hn]

/-- C3 witness: the theorem applied at a count of 2 (bulk request issued)
and a count of 0 (no command, measurements unchanged). -/
theorem racp_count_response_w :
    handleRACPResponse [] [0x05, 0, 2, 0] = ([], [[0x01, 0x01]])
    ∧ handleRACPResponse [] [0x05, 0, 0, 0] = ([], []) :=
  ⟨by simpa using racp_count_response [] [0x05, 0, 2, 0] 2 rfl rfl,
   by simpa using racp_count_response [] [0x05, 0, 0, 0] 0 rfl rfl⟩

/-- The hook state the session operations act on: the connected device
(`none` when not connected), the `connectionState` string, the
accumulated measurement list and the active subscription handles. -/
structure HookState where
  connectedDevice : Option Nat
  connectionState : String
  measurementData : List OmronMeasurement
  subscriptions : List Nat
deriving DecidableEq

/-- Embedding of `disconnect`.  When no device is connected it returns at
once, changing nothing.  Otherwise `removeAllSubscriptions` clears the
subscription list (individual remove failures are swallowed inside it),
the transport disconnect is requested — `_transportFails` says whether
that call throws, which is caught — and the `finally` block
unconditionally clears the connected device and sets the state to
"Disconnected".  The accumulated measurement list is not touched. -/
def disconnect (_transportFails : Bool) (s : HookState) : HookState :=
  match s.connectedDevice with
  | none => s
  | some _ =>
    { s with subscriptions := [], connectedDevice := none,
             connectionState := "Disconnected" }

/-- C4 counterexample: with no connected device (as mid-connect, before
the transport connect resolves) `disconnect` leaves the state and the
subscription list untouched instead of unconditionally disconnecting;
and even with a device connected it does not clear the accumulated
measurement list. -/
theorem disconnect_cx :
    (disconnect false ⟨none, "Connecting...", [], [7]⟩).connectionState ≠ "Disconnected"
    ∧ (disconnect false ⟨none, "Connecting...", [], [7]⟩).subscriptions ≠ []
    ∧ (disconnect false ⟨some 1, "Connected",
        [.bodyComposition ⟨none, none⟩], []⟩).measurementData ≠ [] := by
  decide

/-- C4 (amended): when a device is connected, `disconnect` removes every
subscription and unconditionally sets the state to Disconnected
regardless of whether the transport disconnect call fails, leaving the
accumulated measurement list unchanged; when no device is connected it
returns immediately without changing anything, so a second consecutive
disconnect never faults. -/
theorem disconnect_behavior :
    (∀ f s d, s.connectedDevice = some d →
      disconnect f s = { s with subscriptions := [], connectedDevice := none,
                                connectionState := "Disconnected" })
    ∧ (∀ f s, s.connectedDevice = none → disconnect f s = s) := by
  constructor
  · intro f s d h
    unfold disconnect
    rw [h]
  · intro f s h
    unfold disconnect
    rw [h]

/-- C4 witness: the amended theorem applied with a connected device and
again with none. -/
theorem disconnect_behavior_w :
    disconnect true ⟨some 2, "Connected", [], [1, 2]⟩ = ⟨none, "Disconnected", [], []⟩
    ∧ disconnect true ⟨none, "Disconnected", [], []⟩ = ⟨none, "Disconnected", [], []⟩ :=
  ⟨disconnect_behavior.1 true ⟨some 2, "Connected", [], [1, 2]⟩ 2 rfl,
   disconnect_behavior.2 true ⟨none, "Disconnected", [], []⟩ rfl⟩

/-- Embedding of `connectToDevice`.  The source stops the scan, clears
all subscriptions and the accumulated measurements, sets the state to
"Connecting...", and requests the transport connect — with no guard on
the current connection state.  `connectOk` abstracts whether the
transport connect / discovery sequence succeeds; the returned Bool
records that a transport connect was issued. -/
def connectToDevice (connectOk : Bool) (devId : Nat) (s : HookState) : HookState × Bool :=
  let s1 : HookState :=
    { s with subscriptions := [], measurementData := [],
             connectionState := "Connecting..." }
  if connectOk then
    ({ s1 with connectedDevice := some devId, connectionState := "Connected" }, true)
  else
    ({ s1 with connectionState := "Connection Failed" }, true)

/-- C5 counterexample: with a session already Connected, a new connect
attempt is NOT rejected — the transport connect is issued and the
existing session's state is replaced rather than left unchanged. -/
theorem connect_guard_cx :
    (connectToDevice true 2 ⟨some 1, "Connected", [], [3]⟩).2 = true
    ∧ (connectToDevice true 2 ⟨some 1, "Connected", [], [3]⟩).1 ≠
        ⟨some 1, "Connected", [], [3]⟩ := by
  decide

/-- C5 (amended): `connectToDevice` has no connection-state guard — from
every prior state it issues the transport connect, clears the
subscription list and the accumulated measurements, and drives the state
to Connected or Connection Failed; an in-flight session is replaced, not
protected. -/
theorem connect_no_guard :
    ∀ ok devId s,
      (connectToDevice ok devId s).2 = true
      ∧ (connectToDevice ok devId s).1.subscriptions = []
      ∧ (connectToDevice ok devId s).1.measurementData = []
      ∧ (connectToDevice ok devId s).1.connectionState =
          (if ok then "Connected" else "Connection Failed") := by
  intro ok devId s
  cases ok <;> simp [connectToDevice]

end Omron
